import Mathlib

/-
Verification of the YouTube video summarizer (src/main.py).

The development shallowly embeds the program's core: video-reference
resolution (get_video_id, validate_video_id), transcript fetching with
error containment (fetch_youtube_transcript), transcript assembly
(the space-join of segment texts), language selection (the provider's
find_transcript, modelled from the spec since the provider is an external
collaborator), the credential startup check, and the two-stage sequential
crew pipeline (modelled from the spec's state machine, since the crew
executor is an external framework).
-/

namespace YT

/-- Membership in the regex character class [a-zA-Z0-9_-] used by both
get_video_id's capture groups and validate_video_id. -/
def isIdChar (c : Char) : Bool :=
  ('a' ≤ c && c ≤ 'z') || ('A' ≤ c && c ≤ 'Z') || ('0' ≤ c && c ≤ '9') ||
    c == '_' || c == '-'

/-- Semantics of the regex piece `([a-zA-Z0-9_-]{n})` at the start of the
input: consume exactly n characters of the class, returning the capture and
the remaining input, or fail. -/
def takeIdChars : Nat → List Char → Option (List Char × List Char)
  | 0, rest => some ([], rest)
  | _ + 1, [] => none
  | n + 1, c :: cs =>
      if isIdChar c then (takeIdChars n cs).map (fun p => (c :: p.1, p.2)) else none

/-- Semantics of a literal regex alternative at the start of the input:
consume exactly the literal, returning the remaining input, or fail. -/
def dropLit : List Char → List Char → Option (List Char)
  | [], rest => some rest
  | _ :: _, [] => none
  | p :: ps, c :: cs => if p = c then dropLit ps cs else none

/-- At one start position, try each literal alternative in order followed by
an 11-character id capture, as Python's regex alternation does. -/
def tryAlts (alts : List (List Char)) (cs : List Char) : Option (List Char) :=
  alts.findSome? fun a =>
    (dropLit a cs).bind fun rest => (takeIdChars 11 rest).map Prod.fst

/-- Semantics of re.search for one pattern `(alt1|...|altk)([a-zA-Z0-9_-]{11})`:
try each start position left to right and return the first capture. -/
def searchCapture (alts : List (List Char)) : List Char → Option (List Char)
  | [] => tryAlts alts []
  | c :: cs =>
      match tryAlts alts (c :: cs) with
      | some cap => some cap
      | none => searchCapture alts cs

/-- Alternatives of the source's first pattern
`(?:v=|\/videos\/|embed\/|\.be\/|shorts\/)([a-zA-Z0-9_-]{11})`. -/
def pattern1_alts : List (List Char) :=
  ["v=".toList, "/videos/".toList, "embed/".toList, ".be/".toList, "shorts/".toList]

/-- The source's second pattern `youtube\.com\/watch\?v=([a-zA-Z0-9_-]{11})`
as a single literal alternative. -/
def pattern2_alts : List (List Char) :=
  ["youtube.com/watch?v=".toList]

/-- The source's third pattern `youtu\.be\/([a-zA-Z0-9_-]{11})` as a single
literal alternative. -/
def pattern3_alts : List (List Char) :=
  ["youtu.be/".toList]

/-- The ordered regex_patterns list of get_video_id (src/main.py lines 64-68). -/
def regex_patterns : List (List (List Char)) :=
  [pattern1_alts, pattern2_alts, pattern3_alts]

/-- The `for pattern in regex_patterns` loop: return group(1) of the first
pattern that matches anywhere in the input. -/
def search_patterns : List (List (List Char)) → List Char → Option (List Char)
  | [], _ => none
  | alts :: ps, cs =>
      match searchCapture alts cs with
      | some cap => some cap
      | none => search_patterns ps cs

/-- Embedding of get_video_id (src/main.py lines 60-73): extract the video id
from a URL, raising ValueError (modelled as Except.error with the message)
when no pattern matches. -/
def get_video_id (youtube_url : String) : Except String String :=
  match search_patterns regex_patterns youtube_url.toList with
  | some cap => Except.ok (String.mk cap)
  | none => Except.error ("Invalid YouTube URL format: " ++ youtube_url)

/-- Embedding of validate_video_id (src/main.py lines 75-79): the anchored
regex `^[a-zA-Z0-9_-]{11}$` under Python semantics, where `$` matches at the
end of the string or just before one newline that ends the string, so the
remainder after the 11-character capture may be empty or one newline. -/
def validate_video_id (video_id : String) : Bool :=
  match takeIdChars 11 video_id.toList with
  | some (_, rest) => rest == [] || rest == ['\n']
  | none => false

/-- One transcript segment as consumed by the assembly loop: only its text
field matters to the program (src/main.py lines 116-119). -/
structure Segment where
  text : String
deriving DecidableEq

/-- Semantics of Python's sep.join(list): the list's strings in order with
sep inserted between consecutive elements. -/
def str_join (sep : String) : List String → String
  | [] => ""
  | [s] => s
  | s :: s2 :: rest => s ++ sep ++ str_join sep (s2 :: rest)

/-- Embedding of the transcript assembly (src/main.py lines 116-119):
`" ".join(text of each snippet)`. -/
def assemble_transcript (snippets : List Segment) : String :=
  str_join " " (snippets.map Segment.text)

/-- One available transcript as the provider reports it: language metadata
plus the segments its fetch() would return. -/
structure TranscriptInfo where
  language : String
  language_code : String
  is_generated : Bool
  snippets : List Segment
deriving DecidableEq

/-- The fixed ordered language preference list passed to find_transcript
(src/main.py lines 103-105). -/
def preferred_languages : List String :=
  ["en-CA", "en-US", "en-GB", "en"]

/-- Modelled from the spec: the external transcript provider's
`find_transcript` (called at src/main.py line 103) is not part of this
repository; per the spec, `selectTranscript(identifier,
preferredCodesInOrder)` "always picks the first preference-list code present
among available transcripts" and "fails if no preferred code is available". -/
def find_transcript (available : List TranscriptInfo) (language_codes : List String) :
    Option TranscriptInfo :=
  language_codes.findSome? fun code =>
    available.find? fun t => t.language_code == code

/-- Exceptions of the Python program that matter to fetch_youtube_transcript:
the three provider error classes imported at src/main.py line 22, ValueError
raised by get_video_id, and any other exception. -/
inductive PyExn where
  | transcriptsDisabled
  | videoUnavailable
  | noTranscriptFound
  | valueError (msg : String)
  | other (msg : String)
deriving DecidableEq

/-- Python's str(e) for the exceptions modelled in PyExn. -/
def str_of_exn : PyExn → String
  | .transcriptsDisabled => ""
  | .videoUnavailable => ""
  | .noTranscriptFound => ""
  | .valueError msg => msg
  | .other msg => msg

/-- Behavior of the external provider's api.list(video_id) call
(src/main.py line 100): it either raises TranscriptsDisabled or
VideoUnavailable, raises some other exception, or returns the list of
available transcripts. -/
inductive ProviderResponse where
  | disabled
  | unavailable
  | otherFailure (msg : String)
  | available (ts : List TranscriptInfo)

/-- The try block of fetch_youtube_transcript (src/main.py lines 93-124):
resolve the id, list transcripts, select the preferred language, fetch the
segments and assemble the text; Except.error is a raised exception. -/
def fetch_body (youtube_url : String) (provider : String → ProviderResponse) :
    Except PyExn String :=
  match get_video_id youtube_url with
  | Except.error msg => Except.error (PyExn.valueError msg)
  | Except.ok video_id =>
    match provider video_id with
    | ProviderResponse.disabled => Except.error PyExn.transcriptsDisabled
    | ProviderResponse.unavailable => Except.error PyExn.videoUnavailable
    | ProviderResponse.otherFailure msg => Except.error (PyExn.other msg)
    | ProviderResponse.available ts =>
      match find_transcript ts preferred_languages with
      | none => Except.error PyExn.noTranscriptFound
      | some transcript => Except.ok (assemble_transcript transcript.snippets)

/-- Embedding of fetch_youtube_transcript (src/main.py lines 87-141): the try
block wrapped in the four except clauses, each returning a descriptive string
as the normal result. An Except.error result would mean an exception escaped
to the caller. -/
def fetch_youtube_transcript (youtube_url : String)
    (provider : String → ProviderResponse) : Except PyExn String :=
  match fetch_body youtube_url provider with
  | Except.ok text => Except.ok text
  | Except.error PyExn.transcriptsDisabled =>
      Except.ok "ERROR: Captions/subtitles are disabled."
  | Except.error PyExn.videoUnavailable =>
      Except.ok "ERROR: Video unavailable or private."
  | Except.error PyExn.noTranscriptFound =>
      Except.ok "ERROR: No transcript found in requested languages."
  | Except.error e => Except.ok ("ERROR: " ++ str_of_exn e)

/-- Stages of the pipeline state machine of spec section 4.4, plus the
aborted state for an unhandled exception. -/
inductive Stage where
  | stInit
  | extractRunning
  | extractComplete
  | summarizeRunning
  | summarizeComplete
  | aborted
deriving DecidableEq

/-- State of one pipeline run: current stage, the PipelineContext's
"extract" entry, and the final summary artifact. -/
structure CrewState where
  stage : Stage
  extract_output : Option String
  final_output : Option String

/-- Modelled from the spec: the CrewAI sequential executor assembled at
src/main.py lines 210-215 is an external framework; spec section 4.4 gives
its transition rules — Extract invokes the fetch tool and stores the text it
receives under the "extract" key; Summarize reads that key as its entire
context and stores the LLM Gateway's response; an unhandled exception aborts
the run. -/
def crew_step (youtube_url : String) (provider : String → ProviderResponse)
    (llm : String → String) : CrewState → CrewState
  | ⟨Stage.stInit, _, _⟩ => ⟨Stage.extractRunning, none, none⟩
  | ⟨Stage.extractRunning, _, _⟩ =>
      match fetch_youtube_transcript youtube_url provider with
      | Except.ok text => ⟨Stage.extractComplete, some text, none⟩
      | Except.error _ => ⟨Stage.aborted, none, none⟩
  | ⟨Stage.extractComplete, ctx, _⟩ => ⟨Stage.summarizeRunning, ctx, none⟩
  | ⟨Stage.summarizeRunning, ctx, _⟩ =>
      ⟨Stage.summarizeComplete, ctx, some (llm (ctx.getD ""))⟩
  | s => s

/-- A pipeline run observed after n steps from the initial state. -/
def crew_run (youtube_url : String) (provider : String → ProviderResponse)
    (llm : String → String) : Nat → CrewState
  | 0 => ⟨Stage.stInit, none, none⟩
  | n + 1 => crew_step youtube_url provider llm (crew_run youtube_url provider llm n)

/-- The credential constant exactly as committed (src/main.py line 38). -/
def GEMINI_API_KEY : String := "YOUR_GEMINI_KEY_HERE"

/-- The startup safety check (src/main.py lines 47-50): Python's
`not GEMINI_API_KEY` is true exactly for the empty string. -/
def gemini_key_check (key : String) : Except PyExn Unit :=
  if key = "" ∨ key = "YOUR_GEMINI_KEY_HERE" then
    Except.error (PyExn.valueError
      "❌ GEMINI_API_KEY is missing! Replace 'YOUR_GEMINI_KEY_HERE' with your own key.")
  else Except.ok ()

/-- Process start: the module-level credential check runs first (src/main.py
lines 47-50); only if it passes is the crew assembled and kicked off
(src/main.py line 229). -/
def process_start (key youtube_url : String) (provider : String → ProviderResponse)
    (llm : String → String) : Except PyExn CrewState :=
  match gemini_key_check key with
  | Except.error e => Except.error e
  | Except.ok _ => Except.ok (crew_run youtube_url provider llm 4)

/- Characterization of the capture of exactly 11 id characters. -/

lemma takeIdChars_eq_some_iff (n : Nat) :
    ∀ (cs cap rest : List Char),
      takeIdChars n cs = some (cap, rest) ↔
        (cs = cap ++ rest ∧ cap.length = n ∧ ∀ c ∈ cap, isIdChar c = true) := by
  induction n with
  | zero =>
    intro cs cap rest
    simp only [takeIdChars, Option.some.injEq, Prod.mk.injEq]
    constructor
    · rintro ⟨h1, h2⟩
      subst h1
      subst h2
      simp
    · rintro ⟨hcs, hlen, -⟩
      have hcap : cap = [] := List.eq_nil_of_length_eq_zero hlen
      subst hcap
      simp only [List.nil_append] at hcs
      exact ⟨rfl, hcs⟩
  | succ n ih =>
    intro cs cap rest
    cases cs with
    | nil =>
      simp only [takeIdChars]
      constructor
      · intro h
        exact absurd h (by simp)
      · rintro ⟨hcs, hlen, -⟩
        rcases List.append_eq_nil.mp hcs.symm with ⟨hc, -⟩
        rw [hc] at hlen
        simp at hlen
    | cons c cs' =>
      simp only [takeIdChars]
      by_cases hc : isIdChar c = true
      · rw [if_pos hc]
        constructor
        · intro h
          rcases Option.map_eq_some'.mp h with ⟨⟨cap', rest'⟩, hks, heq⟩
          rcases Prod.mk.injEq .. ▸ heq with ⟨h1, h2⟩
          subst h1
          subst h2
          rcases (ih cs' cap' rest').mp hks with ⟨hcs, hlen, hall⟩
          refine ⟨by simp [hcs], by simp [hlen], ?_⟩
          intro x hx
          rcases List.mem_cons.mp hx with hx | hx
          · rw [hx]; exact hc
          · exact hall x hx
        · rintro ⟨hcs, hlen, hall⟩
          cases cap with
          | nil => simp at hlen
          | cons d cap' =>
            rcases List.cons.injEq .. ▸ hcs with ⟨hd, hcs'⟩
            subst hd
            have hk : takeIdChars n cs' = some (cap', rest) :=
              (ih cs' cap' rest).mpr
                ⟨hcs', by simpa using hlen, fun x hx => hall x (List.mem_cons_of_mem _ hx)⟩
            rw [hk]
            rfl
      · rw [if_neg hc]
        constructor
        · intro h
          exact absurd h (by simp)
        · rintro ⟨hcs, hlen, hall⟩
          cases cap with
          | nil => simp at hlen
          | cons d cap' =>
            rcases List.cons.injEq .. ▸ hcs with ⟨hd, -⟩
            subst hd
            exact absurd (hall c (List.mem_cons_self c cap')) hc

/- Soundness of the literal-alternative consumption. -/

lemma dropLit_eq_some (a : List Char) :
    ∀ (cs rest : List Char), dropLit a cs = some rest → cs = a ++ rest := by
  induction a with
  | nil =>
    intro cs rest h
    simp only [dropLit, Option.some.injEq] at h
    simp [h]
  | cons p ps ih =>
    intro cs rest h
    cases cs with
    | nil => exact absurd h (by simp [dropLit])
    | cons c cs' =>
      simp only [dropLit] at h
      by_cases hpc : p = c
      · rw [if_pos hpc] at h
        subst hpc
        simp [ih cs' rest h]
      · rw [if_neg hpc] at h
        exact absurd h (by simp)

/- Any capture produced by one alternation position is an 11-character id
substring of the input at that position. -/

lemma tryAlts_sound (alts : List (List Char)) :
    ∀ (cs cap : List Char), tryAlts alts cs = some cap →
      (cap.length = 11 ∧ ∀ c ∈ cap, isIdChar c = true) ∧
        ∃ pre post, cs = pre ++ cap ++ post := by
  induction alts with
  | nil =>
    intro cs cap h
    exact absurd h (by simp [tryAlts])
  | cons a alts' ih =>
    intro cs cap h
    simp only [tryAlts, List.findSome?_cons] at h
    cases hd : (dropLit a cs).bind fun rest => (takeIdChars 11 rest).map Prod.fst with
    | some cap' =>
      rw [hd] at h
      rcases Option.some.injEq .. ▸ h with hcap
      subst hcap
      rcases Option.bind_eq_some.mp hd with ⟨rest, hdrop, hmap⟩
      rcases Option.map_eq_some'.mp hmap with ⟨⟨cap'', rest'⟩, hk, hfst⟩
      rcases (takeIdChars_eq_some_iff 11 rest cap'' rest').mp hk with ⟨hrest, hlen, hall⟩
      have hcs := dropLit_eq_some a cs rest hdrop
      subst hfst
      refine ⟨⟨hlen, hall⟩, a, rest', ?_⟩
      rw [hcs, hrest]
      simp
    | none =>
      rw [hd] at h
      exact ih cs cap h

/- Any capture found by the whole search is an 11-character id substring. -/

lemma searchCapture_sound (alts : List (List Char)) :
    ∀ (cs cap : List Char), searchCapture alts cs = some cap →
      (cap.length = 11 ∧ ∀ c ∈ cap, isIdChar c = true) ∧
        ∃ pre post, cs = pre ++ cap ++ post := by
  intro cs
  induction cs with
  | nil =>
    intro cap h
    simp only [searchCapture] at h
    exact tryAlts_sound alts [] cap h
  | cons c cs' ih =>
    intro cap h
    simp only [searchCapture] at h
    cases ht : tryAlts alts (c :: cs') with
    | some cap' =>
      rw [ht] at h
      simp only [Option.some.injEq] at h
      subst h
      exact tryAlts_sound alts (c :: cs') _ ht
    | none =>
      rw [ht] at h
      rcases ih cap h with ⟨hid, pre, post, hcs⟩
      exact ⟨hid, c :: pre, post, by simp [hcs]⟩

lemma search_patterns_sound (ps : List (List (List Char))) :
    ∀ (cs cap : List Char), search_patterns ps cs = some cap →
      (cap.length = 11 ∧ ∀ c ∈ cap, isIdChar c = true) ∧
        ∃ pre post, cs = pre ++ cap ++ post := by
  induction ps with
  | nil =>
    intro cs cap h
    exact absurd h (by simp [search_patterns])
  | cons alts ps' ih =>
    intro cs cap h
    simp only [search_patterns] at h
    cases hs : searchCapture alts cs with
    | some cap' =>
      rw [hs] at h
      simp only [Option.some.injEq] at h
      subst h
      exact searchCapture_sound alts cs _ hs
    | none =>
      rw [hs] at h
      exact ih cs cap h

lemma search_patterns_eq_none_iff (ps : List (List (List Char))) (cs : List Char) :
    search_patterns ps cs = none ↔ ∀ alts ∈ ps, searchCapture alts cs = none := by
  induction ps with
  | nil => simp [search_patterns]
  | cons alts ps' ih =>
    simp only [search_patterns, List.mem_cons]
    cases hs : searchCapture alts cs with
    | some cap =>
      simp only [reduceCtorEq, false_iff, not_forall]
      exact ⟨alts, Or.inl rfl, by simp [hs]⟩
    | none =>
      rw [ih]
      constructor
      · intro hall x hx
        rcases hx with hx | hx
        · rw [hx]; exact hs
        · exact hall x hx
      · intro hall x hx
        exact hall x (Or.inr hx)

lemma toList_length (x : String) : x.toList.length = x.length := rfl

/-- Counterexample to C7: Python's `$` also matches just before one newline
that ends the string, so validate_video_id accepts the 12-character string
dQw4w9WgXcQ followed by a newline, although the newline lies outside the
alphabet and the length is not 11 — refuting "false for every other
string". -/
theorem validate_video_id_accepts_trailing_newline :
    validate_video_id "dQw4w9WgXcQ\n" = true
    ∧ "dQw4w9WgXcQ\n".length = 12
    ∧ isIdChar '\n' = false :=
  ⟨rfl, rfl, rfl⟩

/-- C7 as amended: validate_video_id x returns true if and only if x is
exactly 11 characters of the alphanumeric-plus-hyphen-underscore alphabet
optionally followed by one trailing newline; it returns false for every
other string. -/
theorem validate_video_id_spec (x : String) :
    validate_video_id x = true ↔
      ∃ cap rest, x.toList = cap ++ rest ∧ cap.length = 11 ∧
        (∀ c ∈ cap, isIdChar c = true) ∧ (rest = [] ∨ rest = ['\n']) := by
  constructor
  · intro h
    unfold validate_video_id at h
    cases hk : takeIdChars 11 x.toList with
    | none =>
      rw [hk] at h
      simp at h
    | some p =>
      rcases p with ⟨cap, rest⟩
      rw [hk] at h
      simp only [Bool.or_eq_true, beq_iff_eq] at h
      rcases (takeIdChars_eq_some_iff 11 x.toList cap rest).mp hk with ⟨hcs, hlen, hall⟩
      exact ⟨cap, rest, hcs, hlen, hall, h⟩
  · rintro ⟨cap, rest, hcs, hlen, hall, hr⟩
    have hk : takeIdChars 11 x.toList = some (cap, rest) :=
      (takeIdChars_eq_some_iff 11 x.toList cap rest).mpr ⟨hcs, hlen, hall⟩
    unfold validate_video_id
    rw [hk]
    rcases hr with hr | hr <;> simp [hr]

/-- C10: on every input on which get_video_id succeeds, the returned
identifier satisfies validate_video_id. -/
theorem resolver_validator_consistency (url id : String)
    (h : get_video_id url = Except.ok id) : validate_video_id id = true := by
  unfold get_video_id at h
  cases hs : search_patterns regex_patterns url.toList with
  | none =>
    rw [hs] at h
    exact absurd h (by simp)
  | some cap =>
    rw [hs] at h
    simp only [Except.ok.injEq] at h
    subst h
    rcases search_patterns_sound regex_patterns url.toList cap hs with ⟨⟨hlen, hall⟩, -⟩
    have hk : takeIdChars 11 (String.mk cap).toList = some (cap, []) :=
      (takeIdChars_eq_some_iff 11 cap cap []).mpr ⟨by simp, hlen, hall⟩
    unfold validate_video_id
    rw [hk]
    rfl

/-- Witness for C10 at the spec's concrete scenario input. -/
theorem resolver_validator_consistency_witness :
    validate_video_id "dQw4w9WgXcQ" = true :=
  resolver_validator_consistency "https://youtu.be/dQw4w9WgXcQ" "dQw4w9WgXcQ" (by rfl)

/-- C3: the short-link scenario resolves to dQw4w9WgXcQ; every successful
resolution returns an 11-character substring of the reference; the first
pattern of the ordered list wins when it matches; and resolution fails with
the invalid-reference error exactly when no pattern matches. -/
theorem resolve_reference_spec :
    get_video_id "https://youtu.be/dQw4w9WgXcQ" = Except.ok "dQw4w9WgXcQ"
    ∧ (∀ url id, get_video_id url = Except.ok id →
        id.length = 11 ∧ ∃ pre post, url.toList = pre ++ id.toList ++ post)
    ∧ (∀ url cap, searchCapture pattern1_alts url.toList = some cap →
        get_video_id url = Except.ok (String.mk cap))
    ∧ (∀ url, (∃ msg, get_video_id url = Except.error msg) ↔
        ∀ alts ∈ regex_patterns, searchCapture alts url.toList = none) := by
  refine ⟨by rfl, ?_, ?_, ?_⟩
  · intro url id h
    unfold get_video_id at h
    cases hs : search_patterns regex_patterns url.toList with
    | none =>
      rw [hs] at h
      exact absurd h (by simp)
    | some cap =>
      rw [hs] at h
      simp only [Except.ok.injEq] at h
      subst h
      rcases search_patterns_sound regex_patterns url.toList cap hs with
        ⟨⟨hlen, -⟩, pre, post, hcs⟩
      exact ⟨hlen, pre, post, hcs⟩
  · intro url cap h
    have hs : search_patterns regex_patterns url.toList = some cap := by
      simp only [regex_patterns, search_patterns, h]
    unfold get_video_id
    rw [hs]
  · intro url
    constructor
    · rintro ⟨msg, h⟩
      unfold get_video_id at h
      cases hs : search_patterns regex_patterns url.toList with
      | some cap =>
        rw [hs] at h
        exact absurd h (by simp)
      | none =>
        exact (search_patterns_eq_none_iff regex_patterns url.toList).mp hs
    · intro hall
      refine ⟨"Invalid YouTube URL format: " ++ url, ?_⟩
      unfold get_video_id
      rw [(search_patterns_eq_none_iff regex_patterns url.toList).mpr hall]

/- Length of the space-join: one separator character between consecutive
elements. -/

lemma str_join_space_length :
    ∀ ts : List String, ts ≠ [] →
      (str_join " " ts).length = (ts.map String.length).sum + (ts.length - 1) := by
  intro ts
  induction ts with
  | nil => intro h; exact absurd rfl h
  | cons t ts' ih =>
    intro _
    cases ts' with
    | nil => simp [str_join]
    | cons t2 rest =>
      have ihr := ih (by simp)
      have h1 : (t ++ " " ++ str_join " " (t2 :: rest)).length
          = t.length + 1 + (str_join " " (t2 :: rest)).length := by
        rw [String.length_append, String.length_append]
        rfl
      show (t ++ " " ++ str_join " " (t2 :: rest)).length = _
      rw [h1, ihr]
      simp only [List.map_cons, List.sum_cons, List.length_cons]
      omega

/-- C4: transcript assembly preserves segment order, inserts exactly N−1
single-space separators between N segments, and assembles the three-segment
scenario to "Hello world today". -/
theorem transcript_assembly_spec :
    (∀ s ss, assemble_transcript (s :: ss) =
        if ss = [] then s.text else s.text ++ " " ++ assemble_transcript ss)
    ∧ (∀ ss : List Segment, ss ≠ [] →
        (assemble_transcript ss).length =
          (ss.map fun s => s.text.length).sum + (ss.length - 1))
    ∧ assemble_transcript [⟨"Hello"⟩, ⟨"world"⟩, ⟨"today"⟩] = "Hello world today" := by
  refine ⟨?_, ?_, by rfl⟩
  · intro s ss
    cases ss with
    | nil => simp [assemble_transcript, str_join]
    | cons s2 rest => simp [assemble_transcript, str_join]
  · intro ss hne
    unfold assemble_transcript
    rw [str_join_space_length (ss.map Segment.text) (by simpa using hne)]
    simp only [List.map_map, List.length_map]
    rfl

/- Language selection: findSome? over the preference list agrees with the
first preference code present among the available transcripts. -/

lemma find_transcript_map_code (avail : List TranscriptInfo) :
    ∀ prefs : List String,
      (find_transcript avail prefs).map TranscriptInfo.language_code =
        prefs.find? (fun code => avail.any fun t => t.language_code == code) := by
  intro prefs
  induction prefs with
  | nil => simp [find_transcript]
  | cons code rest ih =>
    simp only [find_transcript, List.findSome?_cons]
    cases hf : avail.find? (fun t => t.language_code == code) with
    | some t =>
      have hpt := List.find?_some hf
      have hcode : t.language_code = code := by simpa using hpt
      have hmem : t ∈ avail := List.mem_of_find?_eq_some hf
      have hany : (avail.any fun t => t.language_code == code) = true :=
        List.any_eq_true.mpr ⟨t, hmem, hpt⟩
      simp [List.find?, hany, hcode]
    | none =>
      have hany : (avail.any fun t => t.language_code == code) = false := by
        rw [List.any_eq_false]
        intro t ht
        exact List.find?_eq_none.mp hf t ht
      simp only [List.find?, hany]
      simp only [find_transcript] at ih
      exact ih

/-- C5: language selection picks the transcript of the first code of the
fixed preference list en-CA, en-US, en-GB, en present among the available
transcripts; it finds nothing exactly when the available codes and the
preference list are disjoint, in which case fetch returns the
no-transcript-found error string; offered es and en, it selects en. -/
theorem language_selection_spec :
    (∀ avail : List TranscriptInfo,
        (find_transcript avail preferred_languages).map TranscriptInfo.language_code =
          preferred_languages.find? (fun code => avail.any fun t => t.language_code == code))
    ∧ (∀ avail : List TranscriptInfo,
        find_transcript avail preferred_languages = none ↔
          ∀ code ∈ preferred_languages, ∀ t ∈ avail, t.language_code ≠ code)
    ∧ find_transcript
        [⟨"Spanish", "es", false, []⟩, ⟨"English", "en", false, []⟩]
        preferred_languages = some ⟨"English", "en", false, []⟩ := by
  refine ⟨fun avail => find_transcript_map_code avail preferred_languages, ?_, by rfl⟩
  intro avail
  unfold find_transcript
  rw [List.findSome?_eq_none_iff]
  constructor
  · intro hall code hcode t ht heq
    have := List.find?_eq_none.mp (hall code hcode) t ht
    exact this (by simp [heq])
  · intro hall code hcode
    rw [List.find?_eq_none]
    intro t ht
    simp only [beq_iff_eq]
    exact hall code hcode t ht

/- Evaluation of the fetch tool on each class of outcome. -/

lemma fetch_eq_of_invalid_url (u : String) (p : String → ProviderResponse) (msg : String)
    (h : get_video_id u = Except.error msg) :
    fetch_youtube_transcript u p = Except.ok ("ERROR: " ++ msg) := by
  simp [fetch_youtube_transcript, fetch_body, str_of_exn, h]

lemma fetch_eq_of_disabled (u : String) (p : String → ProviderResponse) (vid : String)
    (hv : get_video_id u = Except.ok vid) (hp : p vid = ProviderResponse.disabled) :
    fetch_youtube_transcript u p = Except.ok "ERROR: Captions/subtitles are disabled." := by
  simp [fetch_youtube_transcript, fetch_body, hv, hp]

lemma fetch_eq_of_unavailable (u : String) (p : String → ProviderResponse) (vid : String)
    (hv : get_video_id u = Except.ok vid) (hp : p vid = ProviderResponse.unavailable) :
    fetch_youtube_transcript u p = Except.ok "ERROR: Video unavailable or private." := by
  simp [fetch_youtube_transcript, fetch_body, hv, hp]

lemma fetch_eq_of_other (u : String) (p : String → ProviderResponse) (vid msg : String)
    (hv : get_video_id u = Except.ok vid) (hp : p vid = ProviderResponse.otherFailure msg) :
    fetch_youtube_transcript u p = Except.ok ("ERROR: " ++ msg) := by
  simp [fetch_youtube_transcript, fetch_body, str_of_exn, hv, hp]

lemma fetch_eq_of_no_transcript (u : String) (p : String → ProviderResponse) (vid : String)
    (ts : List TranscriptInfo) (hv : get_video_id u = Except.ok vid)
    (hp : p vid = ProviderResponse.available ts)
    (hn : find_transcript ts preferred_languages = none) :
    fetch_youtube_transcript u p =
      Except.ok "ERROR: No transcript found in requested languages." := by
  simp [fetch_youtube_transcript, fetch_body, hv, hp, hn]

lemma fetch_eq_of_transcript (u : String) (p : String → ProviderResponse) (vid : String)
    (ts : List TranscriptInfo) (tr : TranscriptInfo) (hv : get_video_id u = Except.ok vid)
    (hp : p vid = ProviderResponse.available ts)
    (hn : find_transcript ts preferred_languages = some tr) :
    fetch_youtube_transcript u p = Except.ok (assemble_transcript tr.snippets) := by
  simp [fetch_youtube_transcript, fetch_body, hv, hp, hn]

/- Evaluation of the pipeline run depending on the fetch result. -/

lemma crew_run_of_ok (u : String) (p : String → ProviderResponse) (l : String → String)
    (s : String) (hf : fetch_youtube_transcript u p = Except.ok s) :
    crew_run u p l 2 = ⟨Stage.extractComplete, some s, none⟩
    ∧ crew_run u p l 3 = ⟨Stage.summarizeRunning, some s, none⟩
    ∧ ∀ n, 4 ≤ n →
        crew_run u p l n = ⟨Stage.summarizeComplete, some s, some (l s)⟩ := by
  have h2 : crew_run u p l 2 = ⟨Stage.extractComplete, some s, none⟩ := by
    show crew_step u p l ⟨Stage.extractRunning, none, none⟩ = _
    unfold crew_step
    rw [hf]
  have h3 : crew_run u p l 3 = ⟨Stage.summarizeRunning, some s, none⟩ := by
    show crew_step u p l (crew_run u p l 2) = _
    rw [h2]
    rfl
  refine ⟨h2, h3, ?_⟩
  intro n hn
  induction n, hn using Nat.le_induction with
  | base =>
    show crew_step u p l (crew_run u p l 3) = _
    rw [h3]
    rfl
  | succ n hn ih =>
    show crew_step u p l (crew_run u p l n) = _
    rw [ih]
    rfl

lemma crew_run_of_error (u : String) (p : String → ProviderResponse) (l : String → String)
    (e : PyExn) (hf : fetch_youtube_transcript u p = Except.error e) :
    ∀ n, 2 ≤ n → crew_run u p l n = ⟨Stage.aborted, none, none⟩ := by
  intro n hn
  induction n, hn using Nat.le_induction with
  | base =>
    show crew_step u p l ⟨Stage.extractRunning, none, none⟩ = _
    unfold crew_step
    rw [hf]
  | succ n hn ih =>
    show crew_step u p l (crew_run u p l n) = _
    rw [ih]
    rfl

/-- C9: fetch_youtube_transcript is total with respect to exceptions — every
input, including references matching no shape, yields a returned string and
no exception escapes; an invalid reference's ValueError is converted by the
catch-all handler into the returned error string. -/
theorem fetch_total_no_exception (u : String) (p : String → ProviderResponse) :
    (∃ s, fetch_youtube_transcript u p = Except.ok s)
    ∧ (∀ msg, get_video_id u = Except.error msg →
        fetch_youtube_transcript u p = Except.ok ("ERROR: " ++ msg)) := by
  constructor
  · cases hv : get_video_id u with
    | error msg => exact ⟨_, fetch_eq_of_invalid_url u p msg hv⟩
    | ok vid =>
      cases hp : p vid with
      | disabled => exact ⟨_, fetch_eq_of_disabled u p vid hv hp⟩
      | unavailable => exact ⟨_, fetch_eq_of_unavailable u p vid hv hp⟩
      | otherFailure msg => exact ⟨_, fetch_eq_of_other u p vid msg hv hp⟩
      | available ts =>
        cases hn : find_transcript ts preferred_languages with
        | none => exact ⟨_, fetch_eq_of_no_transcript u p vid ts hv hp hn⟩
        | some tr => exact ⟨_, fetch_eq_of_transcript u p vid ts tr hv hp hn⟩
  · intro msg hv
    exact fetch_eq_of_invalid_url u p msg hv

/-- C1: each provider-raised failure (captions disabled, video unavailable,
no transcript found, any other exception) makes fetch return a descriptive
error string as its normal result; that string is the Extract stage's output
and is forwarded unchanged as the Summarize stage's context, whose output is
the LLM applied to it. -/
theorem transcript_error_containment (u : String) (p : String → ProviderResponse)
    (l : String → String) (vid : String) (hv : get_video_id u = Except.ok vid) :
    (p vid = ProviderResponse.disabled →
      fetch_youtube_transcript u p = Except.ok "ERROR: Captions/subtitles are disabled."
      ∧ (crew_run u p l 2).extract_output = some "ERROR: Captions/subtitles are disabled."
      ∧ (crew_run u p l 3).extract_output = some "ERROR: Captions/subtitles are disabled."
      ∧ (crew_run u p l 4).final_output = some (l "ERROR: Captions/subtitles are disabled."))
    ∧ (p vid = ProviderResponse.unavailable →
      fetch_youtube_transcript u p = Except.ok "ERROR: Video unavailable or private."
      ∧ (crew_run u p l 3).extract_output = some "ERROR: Video unavailable or private."
      ∧ (crew_run u p l 4).final_output = some (l "ERROR: Video unavailable or private."))
    ∧ (∀ ts, p vid = ProviderResponse.available ts →
        find_transcript ts preferred_languages = none →
      fetch_youtube_transcript u p =
        Except.ok "ERROR: No transcript found in requested languages."
      ∧ (crew_run u p l 3).extract_output =
          some "ERROR: No transcript found in requested languages."
      ∧ (crew_run u p l 4).final_output =
          some (l "ERROR: No transcript found in requested languages."))
    ∧ (∀ msg, p vid = ProviderResponse.otherFailure msg →
      fetch_youtube_transcript u p = Except.ok ("ERROR: " ++ msg)
      ∧ (crew_run u p l 3).extract_output = some ("ERROR: " ++ msg)
      ∧ (crew_run u p l 4).final_output = some (l ("ERROR: " ++ msg))) := by
  refine ⟨?_, ?_, ?_, ?_⟩
  · intro hp
    have hf := fetch_eq_of_disabled u p vid hv hp
    rcases crew_run_of_ok u p l _ hf with ⟨h2, h3, h4⟩
    exact ⟨hf, by rw [h2], by rw [h3], by rw [h4 4 (by omega)]⟩
  · intro hp
    have hf := fetch_eq_of_unavailable u p vid hv hp
    rcases crew_run_of_ok u p l _ hf with ⟨-, h3, h4⟩
    exact ⟨hf, by rw [h3], by rw [h4 4 (by omega)]⟩
  · intro ts hp hn
    have hf := fetch_eq_of_no_transcript u p vid ts hv hp hn
    rcases crew_run_of_ok u p l _ hf with ⟨-, h3, h4⟩
    exact ⟨hf, by rw [h3], by rw [h4 4 (by omega)]⟩
  · intro msg hp
    have hf := fetch_eq_of_other u p vid msg hv hp
    rcases crew_run_of_ok u p l _ hf with ⟨-, h3, h4⟩
    exact ⟨hf, by rw [h3], by rw [h4 4 (by omega)]⟩

/-- Witness for C1: captions disabled for the short-link video. -/
theorem transcript_error_containment_witness :
    fetch_youtube_transcript "https://youtu.be/dQw4w9WgXcQ"
        (fun _ => ProviderResponse.disabled) =
      Except.ok "ERROR: Captions/subtitles are disabled."
    ∧ (crew_run "https://youtu.be/dQw4w9WgXcQ" (fun _ => ProviderResponse.disabled)
        (fun s => s) 2).extract_output = some "ERROR: Captions/subtitles are disabled."
    ∧ (crew_run "https://youtu.be/dQw4w9WgXcQ" (fun _ => ProviderResponse.disabled)
        (fun s => s) 3).extract_output = some "ERROR: Captions/subtitles are disabled."
    ∧ (crew_run "https://youtu.be/dQw4w9WgXcQ" (fun _ => ProviderResponse.disabled)
        (fun s => s) 4).final_output = some "ERROR: Captions/subtitles are disabled." :=
  (transcript_error_containment "https://youtu.be/dQw4w9WgXcQ"
    (fun _ => ProviderResponse.disabled) (fun s => s) "dQw4w9WgXcQ" (by rfl)).1 (by rfl)

/-- Counterexample to C2: for the unrecognizable reference
https://example.com/video, get_video_id does raise the invalid-reference
error, but the error is raised inside the Extract stage's try block, so the
pipeline run still occurs: the Extract stage outputs the error string and
the run reaches SummarizeComplete with a summary of that string. -/
theorem invalid_reference_pipeline_still_runs :
    get_video_id "https://example.com/video" =
      Except.error "Invalid YouTube URL format: https://example.com/video"
    ∧ fetch_youtube_transcript "https://example.com/video"
        (fun _ => ProviderResponse.disabled) =
      Except.ok "ERROR: Invalid YouTube URL format: https://example.com/video"
    ∧ (crew_run "https://example.com/video" (fun _ => ProviderResponse.disabled)
        (fun s => s) 4).stage = Stage.summarizeComplete
    ∧ (crew_run "https://example.com/video" (fun _ => ProviderResponse.disabled)
        (fun s => s) 4).extract_output =
      some "ERROR: Invalid YouTube URL format: https://example.com/video"
    ∧ (crew_run "https://example.com/video" (fun _ => ProviderResponse.disabled)
        (fun s => s) 4).final_output =
      some "ERROR: Invalid YouTube URL format: https://example.com/video" :=
  ⟨rfl, rfl, rfl, rfl, rfl⟩

/-- C2 as amended: for every reference matching no supported shape,
get_video_id raises the invalid-reference ValueError, but since resolution
runs inside the Extract stage's try block the error is caught by the
catch-all handler and downgraded to a descriptive error string; the pipeline
run is not aborted — both stages execute, with that string as the Extract
output and the Summarize input. -/
theorem invalid_reference_caught_in_extract (u : String)
    (p : String → ProviderResponse) (l : String → String) (msg : String)
    (h : get_video_id u = Except.error msg) :
    fetch_youtube_transcript u p = Except.ok ("ERROR: " ++ msg)
    ∧ (crew_run u p l 2).extract_output = some ("ERROR: " ++ msg)
    ∧ (crew_run u p l 4).stage = Stage.summarizeComplete
    ∧ (crew_run u p l 4).final_output = some (l ("ERROR: " ++ msg)) := by
  have hf := fetch_eq_of_invalid_url u p msg h
  rcases crew_run_of_ok u p l _ hf with ⟨h2, -, h4⟩
  exact ⟨hf, by rw [h2], by rw [h4 4 (by omega)], by rw [h4 4 (by omega)]⟩

/-- Witness for the amended C2 at the spec's unrecognizable reference. -/
theorem invalid_reference_caught_in_extract_witness :
    fetch_youtube_transcript "https://example.com/video"
        (fun _ => ProviderResponse.unavailable) =
      Except.ok ("ERROR: " ++ "Invalid YouTube URL format: https://example.com/video")
    ∧ (crew_run "https://example.com/video" (fun _ => ProviderResponse.unavailable)
        (fun s => s) 2).extract_output =
      some ("ERROR: " ++ "Invalid YouTube URL format: https://example.com/video")
    ∧ (crew_run "https://example.com/video" (fun _ => ProviderResponse.unavailable)
        (fun s => s) 4).stage = Stage.summarizeComplete
    ∧ (crew_run "https://example.com/video" (fun _ => ProviderResponse.unavailable)
        (fun s => s) 4).final_output =
      some ("ERROR: " ++ "Invalid YouTube URL format: https://example.com/video") :=
  invalid_reference_caught_in_extract "https://example.com/video"
    (fun _ => ProviderResponse.unavailable) (fun s => s)
    "Invalid YouTube URL format: https://example.com/video" (by rfl)

/-- C6: the Summarize stage never begins before the Extract stage has fully
returned — whenever a run state is in or past the Summarize stage, an
earlier step completed the Extract stage, and the summarize context is
exactly the Extract stage's fetch output. -/
theorem pipeline_sequential_ordering (u : String) (p : String → ProviderResponse)
    (l : String → String) (n : Nat)
    (h : (crew_run u p l n).stage = Stage.summarizeRunning ∨
         (crew_run u p l n).stage = Stage.summarizeComplete) :
    ∃ m, m < n ∧ (crew_run u p l m).stage = Stage.extractComplete ∧
      ∃ text, fetch_youtube_transcript u p = Except.ok text ∧
        (crew_run u p l m).extract_output = some text ∧
        (crew_run u p l n).extract_output = some text := by
  cases hf : fetch_youtube_transcript u p with
  | error e =>
    exfalso
    match n, h with
    | 0, h => rcases h with h | h <;> exact absurd h (by simp [crew_run])
    | 1, h => rcases h with h | h <;> exact absurd h (by simp [crew_run, crew_step])
    | (k + 2), h =>
      rw [crew_run_of_error u p l e hf (k + 2) (by omega)] at h
      rcases h with h | h <;> exact absurd h (by simp)
  | ok s =>
    rcases crew_run_of_ok u p l s hf with ⟨h2, h3, h4⟩
    match n, h with
    | 0, h => rcases h with h | h <;> exact absurd h (by simp [crew_run])
    | 1, h => rcases h with h | h <;> exact absurd h (by simp [crew_run, crew_step])
    | 2, h => rw [h2] at h; rcases h with h | h <;> exact absurd h (by simp)
    | 3, h =>
      exact ⟨2, by omega, by rw [h2], s, rfl, by rw [h2], by rw [h3]⟩
    | (k + 4), h =>
      refine ⟨2, by omega, by rw [h2], s, rfl, by rw [h2], ?_⟩
      rw [h4 (k + 4) (by omega)]

/-- Witness for C6: the run at step 3 (Summarize running) for the short-link
video with a transcript in en. -/
theorem pipeline_sequential_ordering_witness :
    ∃ m, m < 3 ∧
      (crew_run "https://youtu.be/dQw4w9WgXcQ"
        (fun _ => ProviderResponse.available
          [⟨"English", "en", false, [⟨"Hello"⟩, ⟨"world"⟩]⟩])
        (fun s => s) m).stage = Stage.extractComplete ∧
      ∃ text,
        fetch_youtube_transcript "https://youtu.be/dQw4w9WgXcQ"
          (fun _ => ProviderResponse.available
            [⟨"English", "en", false, [⟨"Hello"⟩, ⟨"world"⟩]⟩]) = Except.ok text ∧
        (crew_run "https://youtu.be/dQw4w9WgXcQ"
          (fun _ => ProviderResponse.available
            [⟨"English", "en", false, [⟨"Hello"⟩, ⟨"world"⟩]⟩])
          (fun s => s) m).extract_output = some text ∧
        (crew_run "https://youtu.be/dQw4w9WgXcQ"
          (fun _ => ProviderResponse.available
            [⟨"English", "en", false, [⟨"Hello"⟩, ⟨"world"⟩]⟩])
          (fun s => s) 3).extract_output = some text :=
  pipeline_sequential_ordering "https://youtu.be/dQw4w9WgXcQ"
    (fun _ => ProviderResponse.available
      [⟨"English", "en", false, [⟨"Hello"⟩, ⟨"world"⟩]⟩])
    (fun s => s) 3 (Or.inl (by rfl))

/-- C8: a missing (empty) or placeholder credential makes process start fail
with the fatal configuration error before any pipeline run begins — no run
state is ever produced — and a run can only be produced when the credential
is neither missing nor the placeholder; the committed credential constant is
the placeholder, so this source always stops at startup. -/
theorem credential_startup_spec :
    (∀ key u p l, (key = "" ∨ key = "YOUR_GEMINI_KEY_HERE") →
      process_start key u p l = Except.error (PyExn.valueError
        "❌ GEMINI_API_KEY is missing! Replace 'YOUR_GEMINI_KEY_HERE' with your own key."))
    ∧ (∀ key u p l st, process_start key u p l = Except.ok st →
        ¬(key = "" ∨ key = "YOUR_GEMINI_KEY_HERE"))
    ∧ (∀ u p l, process_start GEMINI_API_KEY u p l = Except.error (PyExn.valueError
        "❌ GEMINI_API_KEY is missing! Replace 'YOUR_GEMINI_KEY_HERE' with your own key.")) := by
  refine ⟨?_, ?_, ?_⟩
  · intro key u p l hk
    simp [process_start, gemini_key_check, hk]
  · intro key u p l st h hk
    simp [process_start, gemini_key_check, hk] at h
  · intro u p l
    simp [process_start, gemini_key_check, GEMINI_API_KEY]

end YT

example : YT.get_video_id "https://youtu.be/dQw4w9WgXcQ" = Except.ok "dQw4w9WgXcQ" := by rfl

example : YT.get_video_id "https://example.com/video" =
    Except.error "Invalid YouTube URL format: https://example.com/video" := by rfl

example : YT.validate_video_id "dQw4w9WgXcQ" = true := by decide

example : YT.validate_video_id "short" = false := by decide
